import Mathlib

/-!
Verification development for the zapid short-ID generator.

The development shallowly embeds the two source modules:

* the crypto module (`getRandomBytes`, `getRandomInt`): the platform's
  secure random source is modelled by an oracle (`Facility`) that is either
  a pure byte stream `ℕ → ℕ` (each value `< 256`, as delivered by a
  `Uint8Array`), unavailable, or throwing with a given message; the
  unbounded rejection-sampling `while (true)` loop is modelled with an
  explicit fuel parameter, `none` meaning the loop has not yet terminated
  within the given fuel;
* the generator module (`validateLength`, `calculateCollisionProbability`,
  `getSafetyLevel`, `getRecommendation`, `generate`, `generateWithInfo`,
  `getCharset`, `getConfig`).

JavaScript `number` arguments reaching the public validation checks are
modelled by `JSNum` (a rational, `NaN`, or an infinity); JavaScript's
32-bit signed bitwise operators `<<`, `|`, `&` used by `getRandomInt` are
modelled exactly (`jsShl`, `jsOr`, `jsAnd`), including the `ToInt32` /
`ToUint32` coercions and the shift count being taken mod 32.  Real-number
arithmetic of the collision model is embedded over `ℝ`.
-/

deriving instance DecidableEq for Except

namespace Zapid

/-- Safety tier, source type `SafetyLevel = 'safe' | 'moderate' | 'high-risk'`. -/
inductive SafetyLevel where
  | safe : SafetyLevel
  | moderate : SafetyLevel
  | highRisk : SafetyLevel
deriving DecidableEq

/-- Error values: `ZapidValidationError` and `CryptoGenerationError`
(both carrying their message), collapsed into one sum type. -/
inductive ZapidErr where
  | validation : String → ZapidErr
  | crypto : String → ZapidErr
deriving DecidableEq

/-- A JavaScript `number` as far as the validation code can observe it:
a finite value (modelled as a rational, which covers every float the tests
use), `NaN`, or an infinity.  A non-numeric argument (string, object, ...)
behaves like `nan` here because `Number.isInteger` is `false` on it and
that check runs first. -/
inductive JSNum where
  | num : ℚ → JSNum
  | nan : JSNum
  | inf : JSNum
  | negInf : JSNum
deriving DecidableEq

/-- Model of `Number.isInteger`. -/
def JSNum.isInteger : JSNum → Bool
  | .num q => q.den == 1
  | _ => false

/-- Model of the JavaScript `<` comparison on numbers (`NaN` compares
false against everything). -/
def JSNum.lt : JSNum → JSNum → Bool
  | .num a, .num b => decide (a < b)
  | .num _, .inf => true
  | .negInf, .num _ => true
  | .negInf, .inf => true
  | _, _ => false

/-- The integer value of a `JSNum` holding a nonnegative integer
(the only case in which the code uses it after validation). -/
def JSNum.toNat : JSNum → ℕ
  | .num q => q.num.toNat
  | _ => 0

/-! ### JavaScript 32-bit bitwise operators -/

/-- ECMAScript `ToUint32`: the argument reduced mod `2^32`, as a natural. -/
def toUint32 (x : ℤ) : ℕ := (x % 4294967296).toNat

/-- ECMAScript `ToInt32`: the argument reduced mod `2^32` into
`[-2^31, 2^31)`. -/
def toInt32 (x : ℤ) : ℤ :=
  if toUint32 x < 2147483648 then (toUint32 x : ℤ) else (toUint32 x : ℤ) - 4294967296

/-- JavaScript `a << b`: both operands coerced to 32 bits, the shift count
taken mod 32, the result read back as a signed 32-bit integer. -/
def jsShl (a b : ℤ) : ℤ := toInt32 ((toUint32 a <<< (toUint32 b % 32) : ℕ) : ℤ)

/-- JavaScript `a | b` on 32-bit operands. -/
def jsOr (a b : ℤ) : ℤ := toInt32 ((toUint32 a ||| toUint32 b : ℕ) : ℤ)

/-- JavaScript `a & b` on 32-bit operands. -/
def jsAnd (a b : ℤ) : ℤ := toInt32 ((toUint32 a &&& toUint32 b : ℕ) : ℤ)

/-! ### Crypto module (`src/zapid/crypto.ts`) -/

/-- The platform secure-random facility as `getRandomBytes` can observe it:
a working byte source (browser or Node, both deliver the requested bytes),
an unavailable one (`getCrypto` throws), or one that throws on use. -/
inductive Facility where
  | ok : (ℕ → ℕ) → Facility
  | unavailable : Facility
  | throws : String → Facility

/-- Message of the error thrown by `getCrypto` when no implementation exists. -/
def noCryptoMsg : String :=
  "No secure crypto implementation available. Ensure you are in a supported environment."

/-- Model of `getRandomBytes(length)`.  `pos` is the read position in the
byte stream; on success the drawn bytes and the advanced position are
returned.  The `getCrypto` failure happens inside the `try`, so its message
is wrapped exactly like a throwing facility's. -/
def getRandomBytes (fac : Facility) (pos : ℕ) (length : JSNum) :
    Except ZapidErr (List ℕ × ℕ) :=
  if !length.isInteger || length.lt (JSNum.num 1) then
    .error (.crypto "Random bytes length must be a positive integer")
  else
    match fac with
    | .unavailable => .error (.crypto ("Failed to generate random bytes: " ++ noCryptoMsg))
    | .throws msg => .error (.crypto ("Failed to generate random bytes: " ++ msg))
    | .ok bytes =>
        .ok ((List.range length.toNat).map (fun i => bytes (pos + i)), pos + length.toNat)

/-- The byte-packing `for` loop of `getRandomInt`:
`num = (num << 8) | bytes[i]` over the drawn bytes. -/
def packBytes : List ℕ → ℤ → ℤ
  | [], num => num
  | b :: bs, num => packBytes bs (jsOr (jsShl num 8) (b : ℤ))

/-- The candidate value of one rejection-sampling iteration:
the bytes packed big-endian, then `num & mask`. -/
def drawVal (bs : List ℕ) (mask : ℤ) : ℤ := jsAnd (packBytes bs 0) mask

/-- Ceiling of the base-2 logarithm, the value `Math.ceil(Math.log2(max))`
computes for the integer ranges of this development (a fuel-based structural
recursion so that the kernel can evaluate it). -/
def clog2Aux (max : ℕ) : ℕ → ℕ → ℕ
  | 0, k => k
  | gas + 1, k => if max ≤ 2 ^ k then k else clog2Aux max gas (k + 1)

/-- Smallest `k` with `max ≤ 2 ^ k`; equals `Math.ceil(Math.log2(max))` for
every integer `max` in the double-exact range. -/
def clog2 (max : ℕ) : ℕ := clog2Aux max max 0

/-- `bitsNeeded` of `getRandomInt`. -/
def bitsNeededOf (max : ℕ) : ℕ := clog2 max

/-- `bytesNeeded = Math.ceil(bitsNeeded / 8)` of `getRandomInt`. -/
def bytesNeededOf (max : ℕ) : ℕ := (bitsNeededOf max + 7) / 8

/-- `mask = (1 << bitsNeeded) - 1` of `getRandomInt`, with the JavaScript
32-bit shift. -/
def maskOf (max : ℕ) : ℤ := jsShl 1 (bitsNeededOf max : ℤ) - 1

/-- The candidate value `getRandomInt(max)` computes from the bytes at
stream position `pos`: the next `bytesNeeded` bytes packed and masked. -/
def drawValAt (bytes : ℕ → ℕ) (max pos : ℕ) : ℤ :=
  drawVal ((List.range (bytesNeededOf max)).map (fun i => bytes (pos + i))) (maskOf max)

/-- The `while (true)` rejection loop of `getRandomInt`, with fuel.
`none` means the fuel ran out before a draw was accepted. -/
def getRandomIntLoop (fac : Facility) (max bytesNeeded : ℕ) (mask : ℤ) :
    ℕ → ℕ → Option (Except ZapidErr (ℕ × ℕ))
  | 0, _ => none
  | fuel + 1, pos =>
    match getRandomBytes fac pos (JSNum.num (bytesNeeded : ℚ)) with
    | .error e => some (.error e)
    | .ok (bs, pos') =>
        let num := drawVal bs mask
        if num < (max : ℤ) then some (.ok (num.toNat, pos'))
        else getRandomIntLoop fac max bytesNeeded mask fuel pos'

/-- Model of `getRandomInt(max)`: validation, the `max === 1` shortcut, then
the masked rejection loop. -/
def getRandomInt (fac : Facility) (fuel pos : ℕ) (max : JSNum) :
    Option (Except ZapidErr (ℕ × ℕ)) :=
  if !max.isInteger || max.lt (JSNum.num 1) then
    some (.error (.crypto "Maximum value must be a positive integer"))
  else if max.toNat = 1 then some (.ok (0, pos))
  else
    getRandomIntLoop fac max.toNat (bytesNeededOf max.toNat) (maskOf max.toNat) fuel pos

/-! ### Generator module (`src/zapid/generator.ts`) -/

/-- The shape of the `CONSTANTS` object (and of the snapshot `getConfig`
returns). -/
structure Constants where
  DEFAULT_LENGTH : ℕ
  MIN_LENGTH : ℕ
  MAX_LENGTH : ℕ
  CHARSET : String
deriving DecidableEq

/-- The module-level `CONSTANTS` object. -/
def CONSTANTS : Constants :=
  ⟨7, 7, 32, "abcdefghijklmnopqrstuvwxyzABCDEFGHIJKLMNOPQRSTUVWXYZ0123456789"⟩

/-- The shape of `COLLISION_THRESHOLDS`, generic in the number type so that
the classification can be stated both over `ℚ` and over `ℝ`. -/
structure CollisionThresholds (α : Type) where
  safe : α
  moderate : α

/-- The `COLLISION_THRESHOLDS` object: `safe: 0.001`, `moderate: 0.1`. -/
def COLLISION_THRESHOLDS (α : Type) [LinearOrderedField α] : CollisionThresholds α :=
  ⟨1 / 1000, 1 / 10⟩

/-- Model of `getSafetyLevel(probability)`. -/
def getSafetyLevel {α : Type} [LinearOrderedField α] (probability : α) : SafetyLevel :=
  if (COLLISION_THRESHOLDS α).moderate ≤ probability then .highRisk
  else if (COLLISION_THRESHOLDS α).safe ≤ probability then .moderate
  else .safe

/-- Model of `Number.prototype.toExponential(2)` for nonnegative integers:
three significant digits, rounded half-up, `d.dd` mantissa and `e+k`
exponent. -/
def toExponential2 (n : ℕ) : String :=
  if n = 0 then "0.00e+0"
  else
    let d := (Nat.digits 10 n).length
    let m := if d ≤ 3 then n * 10 ^ (3 - d) else (2 * n + 10 ^ (d - 3)) / (2 * 10 ^ (d - 3))
    let mk := if m = 1000 then ((100 : ℕ), d) else (m, d - 1)
    let s := toString mk.1
    (s.take 1) ++ "." ++ (s.drop 1) ++ "e+" ++ toString mk.2

/-- The `SAFETY_RECOMMENDATIONS` record: each tier's message builder
(`combinations` is only used by the `safe` message). -/
def SAFETY_RECOMMENDATIONS (level : SafetyLevel) (combinations : ℕ) : String :=
  match level with
  | .safe =>
      "Safe for up to 100k IDs. Total possible combinations: " ++ toExponential2 combinations
  | .moderate => "Moderate collision risk. Consider increasing length for large-scale use."
  | .highRisk => "High collision risk. Increase length or reduce number of IDs."

/-- Model of `getRecommendation(length, safety)`; the combination count
`CHARSET.length ^ length` is modelled exactly over `ℕ`. -/
def getRecommendation (length : ℕ) (safety : SafetyLevel) : String :=
  SAFETY_RECOMMENDATIONS safety (CONSTANTS.CHARSET.length ^ length)

/-- Model of `validateLength(length)`: integer check, then minimum, then
maximum, first failing check wins. -/
def validateLength (length : JSNum) : Except ZapidErr Unit :=
  if !length.isInteger then
    .error (.validation "ID length must be an integer")
  else if length.lt (JSNum.num (CONSTANTS.MIN_LENGTH : ℚ)) then
    .error (.validation
      ("ID length must be at least " ++ toString CONSTANTS.MIN_LENGTH ++ " characters"))
  else if (JSNum.num (CONSTANTS.MAX_LENGTH : ℚ)).lt length then
    .error (.validation
      ("ID length cannot exceed " ++ toString CONSTANTS.MAX_LENGTH ++ " characters"))
  else
    .ok ()

/-- The character-drawing `for` loop of `generate`: each position draws one
index via `getRandomInt(CHARSET.length)` and appends the corresponding
charset character. -/
def generateLoop (fac : Facility) (fuel : ℕ) :
    ℕ → ℕ → List Char → Option (Except ZapidErr (List Char × ℕ))
  | 0, pos, acc => some (.ok (acc, pos))
  | n + 1, pos, acc =>
    match getRandomInt fac fuel pos (JSNum.num (CONSTANTS.CHARSET.length : ℚ)) with
    | none => none
    | some (.error e) => some (.error e)
    | some (.ok (idx, pos')) =>
        generateLoop fac fuel n pos' (acc ++ [CONSTANTS.CHARSET.data.getD idx 'a'])

/-- Model of `generate(length)` (the omitted-argument default is
`CONSTANTS.DEFAULT_LENGTH`, supplied by the caller here).  The id is the
list of drawn characters; the returned `ℕ` is the stream position after the
consumed entropy. -/
def generate (fac : Facility) (fuel pos : ℕ) (length : JSNum) :
    Option (Except ZapidErr (List Char × ℕ)) :=
  match validateLength length with
  | .error e => some (.error e)
  | .ok _ => generateLoop fac fuel length.toNat pos []

/-- Model of `calculateCollisionProbability(length, numIds)` over `ℝ`
(`numIds` defaults to `100000` at the call site in `generateWithInfo`):
the birthday-bound approximation `1 - e^(-numIds*(numIds-1) / (2*space))`
with `space = CHARSET.length ^ length`. -/
noncomputable def calculateCollisionProbability (length numIds : ℕ) : ℝ :=
  let space : ℝ := (CONSTANTS.CHARSET.length : ℝ) ^ length
  let exponent : ℝ := (-(numIds : ℝ) * ((numIds : ℝ) - 1)) / (2 * space)
  1 - Real.exp exponent

/-- Model of `Number.prototype.toFixed(3)` for the nonnegative values that
arise here: round to the nearest thousandth (ties toward the larger value,
as ECMAScript specifies), then print with exactly three decimals. -/
noncomputable def toFixed3 (x : ℝ) : String :=
  toString (⌊x * 1000 + 1 / 2⌋ / 1000) ++ "." ++
    String.mk (List.replicate (3 - (toString (⌊x * 1000 + 1 / 2⌋ % 1000).toNat).length) '0') ++
    toString (⌊x * 1000 + 1 / 2⌋ % 1000).toNat

/-- The result record of `generateWithInfo`; `collisionProbability` is the
formatted percentage string of the source. -/
structure ZapidResult where
  id : List Char
  safety : SafetyLevel
  collisionProbability : String
  recommendation : String

/-- Model of `generateWithInfo(length)`: validate, generate an id, compute
the probability from the length alone, classify, format. -/
noncomputable def generateWithInfo (fac : Facility) (fuel pos : ℕ) (length : JSNum) :
    Option (Except ZapidErr (ZapidResult × ℕ)) :=
  match validateLength length with
  | .error e => some (.error e)
  | .ok _ =>
    match generate fac fuel pos length with
    | none => none
    | some (.error e) => some (.error e)
    | some (.ok (id, pos')) =>
        let probability := calculateCollisionProbability length.toNat 100000
        let safety := getSafetyLevel probability
        some (.ok (⟨id, safety, toFixed3 (probability * 100) ++ "%",
          getRecommendation length.toNat safety⟩, pos'))

/-- Model of `getCharset()`. -/
def getCharset : String := CONSTANTS.CHARSET

/-- Model of `getConfig()`: `Object.freeze({ ...CONSTANTS })`, a frozen
copy of the constants, modelled as a value. -/
def getConfig : Constants :=
  ⟨CONSTANTS.DEFAULT_LENGTH, CONSTANTS.MIN_LENGTH, CONSTANTS.MAX_LENGTH, CONSTANTS.CHARSET⟩

/-! ### The sampling algorithm as the specification words it (§4.2)

Modelled from the spec: `bitsNeeded = ceil(log2(max))`,
`bytesNeeded = ceil(bitsNeeded/8)`, `mask = (1 << bitsNeeded) - 1` read as
the mathematical `2 ^ bitsNeeded - 1` ("zeroing high-order bits beyond
`bitsNeeded`"), bytes packed big-endian into an integer, masked, accepted
iff `< max`.  This is the comparison point for the refinement claim about
`getRandomInt`. -/

/-- Big-endian packing of a byte list into a natural number, the
specification's "pack them big-endian into an integer". -/
def packNat : List ℕ → ℕ → ℕ
  | [], acc => acc
  | b :: bs, acc => packNat bs (acc * 256 + b)

/-- Modelled from the spec: the rejection loop of §4.2 with the
mathematical mask `2 ^ bitsNeeded - 1`. -/
def getRandomIntSpecLoop (bytes : ℕ → ℕ) (max bytesNeeded mask : ℕ) :
    ℕ → ℕ → Option (ℕ × ℕ)
  | 0, _ => none
  | fuel + 1, pos =>
    let bs := (List.range bytesNeeded).map (fun i => bytes (pos + i))
    let num := packNat bs 0 &&& mask
    if num < max then some (num, pos + bytesNeeded)
    else getRandomIntSpecLoop bytes max bytesNeeded mask fuel (pos + bytesNeeded)

/-- Modelled from the spec: the full §4.2 algorithm (`max == 1` shortcut,
then the masked rejection loop with the mathematical mask). -/
def getRandomIntSpec (bytes : ℕ → ℕ) (fuel pos max : ℕ) : Option (ℕ × ℕ) :=
  if max = 1 then some (0, pos)
  else
    let bitsNeeded := clog2 max
    let bytesNeeded := (bitsNeeded + 7) / 8
    let mask := 2 ^ bitsNeeded - 1
    getRandomIntSpecLoop bytes max bytesNeeded mask fuel pos

/-! ### Arithmetic helper lemmas for the 32-bit operators -/

theorem toUint32_lt (x : ℤ) : toUint32 x < 4294967296 := by
  unfold toUint32
  have h1 : 0 ≤ x % 4294967296 := Int.emod_nonneg x (by norm_num)
  have h2 : x % 4294967296 < 4294967296 := Int.emod_lt_of_pos x (by norm_num)
  omega

theorem toUint32_natCast (m : ℕ) : toUint32 (m : ℤ) = m % 4294967296 := by
  unfold toUint32
  omega

theorem toUint32_of_lt {m : ℕ} (h : m < 4294967296) : toUint32 (m : ℤ) = m := by
  rw [toUint32_natCast, Nat.mod_eq_of_lt h]

theorem toUint32_toInt32 (x : ℤ) : toUint32 (toInt32 x) = toUint32 x := by
  unfold toInt32
  split
  · rw [toUint32_of_lt (toUint32_lt x)]
  · unfold toUint32
    omega

theorem toInt32_of_lt {m : ℕ} (h : m < 2147483648) : toInt32 (m : ℤ) = (m : ℤ) := by
  unfold toInt32
  rw [toUint32_of_lt (by omega)]
  simp [h]

/-- Big-endian byte append: `(2^8 * q) ||| b = 2^8 * q + b` for a byte `b`. -/
theorem lor_byte_eq_add {x b : ℕ} (hx : 256 ∣ x) (hb : b < 256) : x ||| b = x + b := by
  obtain ⟨q, rfl⟩ := hx
  apply Nat.eq_of_testBit_eq
  intro i
  have h256 : (256 : ℕ) = 2 ^ 8 := by norm_num
  rw [Nat.testBit_lor, h256, Nat.testBit_mul_pow_two_add q hb i]
  by_cases hi : i < 8
  · rw [if_pos hi]
    have hqf : (2 ^ 8 * q).testBit i = false := by
      rw [Nat.testBit_mul_pow_two]
      simp [Nat.not_le.mpr hi]
    rw [hqf, Bool.false_or]
  · rw [if_neg hi]
    have hbi : b < 2 ^ i := by
      calc b < 256 := hb
        _ = 2 ^ 8 := by norm_num
        _ ≤ 2 ^ i := Nat.pow_le_pow_right (by norm_num) (by omega)
    rw [Nat.testBit_lt_two_pow hbi, Bool.or_false, Nat.testBit_mul_pow_two]
    simp [Nat.not_lt.mp hi]

/-! ### Characterization of `clog2` -/

theorem clog2Aux_spec (max : ℕ) :
    ∀ gas k, max ≤ 2 ^ (gas + k) → (∀ j, j < k → 2 ^ j < max) →
      max ≤ 2 ^ clog2Aux max gas k ∧ ∀ j, j < clog2Aux max gas k → 2 ^ j < max := by
  intro gas
  induction gas with
  | zero =>
    intro k h1 h2
    exact ⟨by simpa [clog2Aux] using h1, by simpa [clog2Aux] using h2⟩
  | succ gas ih =>
    intro k h1 h2
    by_cases hk : max ≤ 2 ^ k
    · rw [clog2Aux, if_pos hk]
      exact ⟨hk, h2⟩
    · rw [clog2Aux, if_neg hk]
      refine ih (k + 1) (by rw [show gas + (k + 1) = gas + 1 + k by omega]; exact h1) ?_
      intro j hj
      rcases Nat.lt_or_ge j k with hjk | hjk
      · exact h2 j hjk
      · have : j = k := by omega
        subst this
        omega

theorem clog2_spec (max : ℕ) :
    max ≤ 2 ^ clog2 max ∧ ∀ j, j < clog2 max → 2 ^ j < max := by
  refine clog2Aux_spec max max 0 ?_ ?_
  · simpa using (Nat.lt_two_pow max).le
  · intro j hj
    omega

theorem clog2_le {max k : ℕ} (h : max ≤ 2 ^ k) : clog2 max ≤ k := by
  by_contra hc
  exact absurd h (by simpa using (clog2_spec max).2 k (by omega))

theorem lt_clog2 {max k : ℕ} (h : 2 ^ k < max) : k < clog2 max := by
  by_contra hc
  have h1 := (clog2_spec max).1
  have h2 : (2 : ℕ) ^ clog2 max ≤ 2 ^ k := Nat.pow_le_pow_right (by norm_num) (by omega)
  omega

/-! ### Characterization of the packing loop and the mask -/

theorem packNat_eq (bs : List ℕ) (a : ℕ) :
    packNat bs a = a * 256 ^ bs.length + packNat bs 0 := by
  induction bs generalizing a with
  | nil => simp [packNat]
  | cons b bs ih =>
    rw [packNat, packNat, ih (a * 256 + b), ih (0 * 256 + b), List.length_cons]
    ring

theorem packNat_mod_congr (bs : List ℕ) (a : ℕ) :
    packNat bs (a % 4294967296) % 4294967296 = packNat bs a % 4294967296 := by
  rw [packNat_eq bs (a % 4294967296), packNat_eq bs a]
  exact Nat.ModEq.add_right _ (Nat.ModEq.mul_right _ (Nat.mod_modEq a 4294967296))

theorem toUint32_jsOr_shl_byte (z : ℤ) {b : ℕ} (hb : b < 256) :
    toUint32 (jsOr (jsShl z 8) (b : ℤ)) = (toUint32 z * 256 + b) % 4294967296 := by
  have h8 : toUint32 8 % 32 = 8 := by decide
  unfold jsOr jsShl
  rw [h8, toUint32_toInt32, toUint32_natCast, toUint32_toInt32, toUint32_natCast,
    toUint32_of_lt (show b < 4294967296 by omega), Nat.shiftLeft_eq,
    show (2 : ℕ) ^ 8 = 256 by norm_num]
  have hdvd : 256 ∣ toUint32 z * 256 % 4294967296 :=
    (Nat.dvd_mod_iff (by norm_num)).mpr ⟨toUint32 z, by ring⟩
  rw [lor_byte_eq_add hdvd hb]
  exact (Nat.mod_modEq (toUint32 z * 256) 4294967296).add_right b

theorem toUint32_packBytes {bs : List ℕ} (h : ∀ b ∈ bs, b < 256) (z : ℤ) :
    toUint32 (packBytes bs z) = packNat bs (toUint32 z) % 4294967296 := by
  induction bs generalizing z with
  | nil => rw [packBytes, packNat, Nat.mod_eq_of_lt (toUint32_lt z)]
  | cons b bs ih =>
    have hb : b < 256 := h b (List.mem_cons_self b bs)
    have hbs : ∀ c ∈ bs, c < 256 := fun c hc => h c (List.mem_cons_of_mem b hc)
    rw [packBytes, ih hbs, toUint32_jsOr_shl_byte z hb, packNat_mod_congr, packNat]

theorem toUint32_mask {bits : ℕ} (h1 : 1 ≤ bits) (h2 : bits ≤ 31) :
    toUint32 (jsShl 1 (bits : ℤ) - 1) = 2 ^ bits - 1 := by
  interval_cases bits <;> decide

theorem drawVal_eq {bs : List ℕ} (h : ∀ b ∈ bs, b < 256) {bits : ℕ}
    (h1 : 1 ≤ bits) (h2 : bits ≤ 31) :
    drawVal bs (jsShl 1 (bits : ℤ) - 1) = ((packNat bs 0 % 2 ^ bits : ℕ) : ℤ) := by
  unfold drawVal jsAnd
  rw [toUint32_packBytes h 0, toUint32_mask h1 h2,
    show toUint32 0 = 0 from by decide, Nat.and_pow_two_sub_one_eq_mod,
    show (4294967296 : ℕ) = 2 ^ 32 from by norm_num,
    Nat.mod_mod_of_dvd _ (pow_dvd_pow 2 (by omega : bits ≤ 32))]
  exact toInt32_of_lt (lt_of_lt_of_le (Nat.mod_lt _ (Nat.pos_pow_of_pos bits (by norm_num)))
    (Nat.pow_le_pow_right (by norm_num) h2))

/-! ### Helper lemmas about `JSNum` arguments holding naturals -/

theorem isInteger_natCast (n : ℕ) : (JSNum.num (n : ℚ)).isInteger = true := by
  simp [JSNum.isInteger, Rat.den_natCast]

theorem toNat_natCast (n : ℕ) : (JSNum.num (n : ℚ)).toNat = n := by
  simp [JSNum.toNat, Rat.num_natCast]

theorem lt_natCast_natCast (n m : ℕ) :
    (JSNum.num (n : ℚ)).lt (JSNum.num (m : ℚ)) = decide (n < m) := by
  simp [JSNum.lt]

theorem getRandomBytes_ok (bytes : ℕ → ℕ) (pos : ℕ) {n : ℕ} (hn : 1 ≤ n) :
    getRandomBytes (.ok bytes) pos (JSNum.num (n : ℚ)) =
      .ok ((List.range n).map (fun i => bytes (pos + i)), pos + n) := by
  unfold getRandomBytes
  rw [isInteger_natCast, show JSNum.num 1 = JSNum.num ((1 : ℕ) : ℚ) from by norm_num,
    lt_natCast_natCast, toNat_natCast]
  simp [Nat.not_lt.mpr hn]

/-! ### Lemmas about the rejection loop -/

theorem getRandomIntLoop_ok_succ (bytes : ℕ → ℕ) (max : ℕ) {bn : ℕ} (hbn : 1 ≤ bn)
    (mask : ℤ) (fuel pos : ℕ) :
    getRandomIntLoop (.ok bytes) max bn mask (fuel + 1) pos =
      if drawVal ((List.range bn).map (fun i => bytes (pos + i))) mask < (max : ℤ) then
        some (.ok ((drawVal ((List.range bn).map (fun i => bytes (pos + i))) mask).toNat,
          pos + bn))
      else getRandomIntLoop (.ok bytes) max bn mask fuel (pos + bn) := by
  rw [getRandomIntLoop, getRandomBytes_ok bytes pos hbn]

theorem getRandomIntLoop_lt {fac : Facility} {max bn : ℕ} {mask : ℤ} (hmax : 1 ≤ max) :
    ∀ fuel pos v p', getRandomIntLoop fac max bn mask fuel pos = some (.ok (v, p')) →
      v < max := by
  intro fuel
  induction fuel with
  | zero =>
    intro pos v p' h
    rw [getRandomIntLoop] at h
    exact absurd h (by simp)
  | succ fuel ih =>
    intro pos v p' h
    rw [getRandomIntLoop] at h
    cases hgb : getRandomBytes fac pos (JSNum.num (bn : ℚ)) with
    | error e =>
      rw [hgb] at h
      simp at h
    | ok bp =>
      rw [hgb] at h
      obtain ⟨bs, pos1⟩ := bp
      dsimp only at h
      by_cases hlt : drawVal bs mask < (max : ℤ)
      · rw [if_pos hlt] at h
        simp only [Option.some.injEq, Except.ok.injEq, Prod.mk.injEq] at h
        omega
      · rw [if_neg hlt] at h
        exact ih pos1 v p' h

theorem getRandomIntLoop_le {bytes : ℕ → ℕ} {max bn : ℕ} {mask : ℤ} (hbn : 1 ≤ bn) :
    ∀ fuel pos v p', getRandomIntLoop (.ok bytes) max bn mask fuel pos = some (.ok (v, p')) →
      pos + bn ≤ p' := by
  intro fuel
  induction fuel with
  | zero =>
    intro pos v p' h
    rw [getRandomIntLoop] at h
    exact absurd h (by simp)
  | succ fuel ih =>
    intro pos v p' h
    rw [getRandomIntLoop_ok_succ bytes max hbn mask fuel pos] at h
    by_cases hlt : drawVal ((List.range bn).map (fun i => bytes (pos + i))) mask < (max : ℤ)
    · rw [if_pos hlt] at h
      simp only [Option.some.injEq, Except.ok.injEq, Prod.mk.injEq] at h
      omega
    · rw [if_neg hlt] at h
      have := ih (pos + bn) v p' h
      omega

theorem getRandomIntLoop_agree {b1 b2 : ℕ → ℕ} {max bn : ℕ} {mask : ℤ} (hbn : 1 ≤ bn) :
    ∀ fuel pos v p', getRandomIntLoop (.ok b1) max bn mask fuel pos = some (.ok (v, p')) →
      (∀ i, pos ≤ i → i < p' → b2 i = b1 i) →
      getRandomIntLoop (.ok b2) max bn mask fuel pos = some (.ok (v, p')) := by
  intro fuel
  induction fuel with
  | zero =>
    intro pos v p' h _
    rw [getRandomIntLoop] at h
    exact absurd h (by simp)
  | succ fuel ih =>
    intro pos v p' h hag
    have hple := getRandomIntLoop_le hbn (fuel + 1) pos v p' h
    rw [getRandomIntLoop_ok_succ b1 max hbn mask fuel pos] at h
    rw [getRandomIntLoop_ok_succ b2 max hbn mask fuel pos]
    have hbs : (List.range bn).map (fun i => b2 (pos + i)) =
        (List.range bn).map (fun i => b1 (pos + i)) := by
      apply List.map_congr_left
      intro i hi
      have hilt : i < bn := List.mem_range.mp hi
      exact hag (pos + i) (by omega) (by omega)
    rw [hbs]
    by_cases hlt : drawVal ((List.range bn).map (fun i => b1 (pos + i))) mask < (max : ℤ)
    · rw [if_pos hlt] at h ⊢
      exact h
    · rw [if_neg hlt] at h ⊢
      exact ih (pos + bn) v p' h (fun i h1 h2 => hag i (by omega) h2)

theorem getRandomIntLoop_equiv {bytes : ℕ → ℕ} (hbytes : ∀ i, bytes i < 256)
    {max bits : ℕ} (h1 : 1 ≤ bits) (h2 : bits ≤ 31) :
    ∀ fuel pos,
      getRandomIntLoop (.ok bytes) max ((bits + 7) / 8) (jsShl 1 (bits : ℤ) - 1) fuel pos =
        Option.map Except.ok
          (getRandomIntSpecLoop bytes max ((bits + 7) / 8) (2 ^ bits - 1) fuel pos) := by
  have hbn : 1 ≤ (bits + 7) / 8 := by omega
  intro fuel
  induction fuel with
  | zero =>
    intro pos
    rw [getRandomIntLoop, getRandomIntSpecLoop]
    rfl
  | succ fuel ih =>
    intro pos
    rw [getRandomIntLoop_ok_succ bytes max hbn _ fuel pos, getRandomIntSpecLoop]
    have hmem : ∀ b ∈ (List.range ((bits + 7) / 8)).map (fun i => bytes (pos + i)), b < 256 := by
      intro b hb
      obtain ⟨i, _, rfl⟩ := List.mem_map.mp hb
      exact hbytes (pos + i)
    rw [drawVal_eq hmem h1 h2]
    simp only [Nat.and_pow_two_sub_one_eq_mod]
    by_cases hlt :
        packNat ((List.range ((bits + 7) / 8)).map (fun i => bytes (pos + i))) 0 % 2 ^ bits < max
    · rw [if_pos (by exact_mod_cast hlt), if_pos hlt]
      rw [Int.toNat_natCast]
      rfl
    · rw [if_neg (by exact_mod_cast hlt), if_neg hlt]
      exact ih (pos + (bits + 7) / 8)

theorem getRandomIntLoop_term {bytes : ℕ → ℕ} {max bn : ℕ} {mask : ℤ} (hbn : 1 ≤ bn) :
    ∀ k pos,
      drawVal ((List.range bn).map (fun i => bytes (pos + k * bn + i))) mask < (max : ℤ) →
      ∃ fuel v p', getRandomIntLoop (.ok bytes) max bn mask fuel pos = some (.ok (v, p')) := by
  intro k
  induction k with
  | zero =>
    intro pos hacc
    refine ⟨1, (drawVal ((List.range bn).map (fun i => bytes (pos + i))) mask).toNat,
      pos + bn, ?_⟩
    rw [getRandomIntLoop_ok_succ bytes max hbn mask 0 pos, if_pos (by simpa using hacc)]
  | succ k ih =>
    intro pos hacc
    by_cases hlt : drawVal ((List.range bn).map (fun i => bytes (pos + i))) mask < (max : ℤ)
    · exact ⟨1, (drawVal ((List.range bn).map (fun i => bytes (pos + i))) mask).toNat, pos + bn,
        by rw [getRandomIntLoop_ok_succ bytes max hbn mask 0 pos, if_pos hlt]⟩
    · have hacc' : drawVal ((List.range bn).map
          (fun i => bytes (pos + bn + k * bn + i))) mask < (max : ℤ) := by
        rw [show pos + bn + k * bn = pos + (k + 1) * bn from by ring]
        exact hacc
      obtain ⟨fuel, v, p', hres⟩ := ih (pos + bn) hacc'
      refine ⟨fuel + 1, v, p', ?_⟩
      rw [getRandomIntLoop_ok_succ bytes max hbn mask fuel pos, if_neg hlt]
      exact hres

/-! ### Lemmas about `getRandomInt` -/

theorem toNat_pos_of_valid {max : JSNum}
    (h : (!max.isInteger || max.lt (JSNum.num 1)) = false) : 1 ≤ max.toNat := by
  cases max with
  | num q =>
    simp only [Bool.or_eq_false_iff, Bool.not_eq_false'] at h
    obtain ⟨h1, h2⟩ := h
    have hq1 : ¬(q < 1) := by
      have := h2
      simp only [JSNum.lt, decide_eq_false_iff_not] at this
      exact this
    have hq : 0 < q := lt_of_lt_of_le zero_lt_one (not_lt.mp hq1)
    have := Rat.num_pos.mpr hq
    simp only [JSNum.toNat]
    omega
  | nan => simp [JSNum.isInteger] at h
  | inf => simp [JSNum.isInteger] at h
  | negInf => simp [JSNum.isInteger] at h

theorem getRandomInt_lt {fac : Facility} {fuel pos : ℕ} {max : JSNum} {v p' : ℕ}
    (h : getRandomInt fac fuel pos max = some (.ok (v, p'))) : v < max.toNat := by
  unfold getRandomInt at h
  split at h
  · simp at h
  · split at h
    next h1 =>
      simp only [Option.some.injEq, Except.ok.injEq, Prod.mk.injEq] at h
      omega
    next h1 =>
      rename_i hval
      have hge := toNat_pos_of_valid (by simpa using hval)
      exact getRandomIntLoop_lt hge fuel pos v p' h

theorem getRandomInt_le {bytes : ℕ → ℕ} {fuel pos : ℕ} {max : JSNum} {v p' : ℕ}
    (h : getRandomInt (.ok bytes) fuel pos max = some (.ok (v, p'))) : pos ≤ p' := by
  unfold getRandomInt at h
  split at h
  · simp at h
  · split at h
    next h1 =>
      simp only [Option.some.injEq, Except.ok.injEq, Prod.mk.injEq] at h
      omega
    next h1 =>
      rename_i hval
      have h2 : 2 ≤ max.toNat := by
        have := toNat_pos_of_valid (by simpa using hval)
        omega
      have hbits : 1 ≤ bitsNeededOf max.toNat := lt_clog2 (by omega : 2 ^ 0 < max.toNat)
      have hbn : 1 ≤ bytesNeededOf max.toNat := by
        unfold bytesNeededOf
        omega
      have := getRandomIntLoop_le hbn fuel pos v p' h
      omega

theorem getRandomInt_agree {b1 b2 : ℕ → ℕ} {fuel pos : ℕ} {max : JSNum} {v p' : ℕ}
    (h : getRandomInt (.ok b1) fuel pos max = some (.ok (v, p')))
    (hag : ∀ i, pos ≤ i → i < p' → b2 i = b1 i) :
    getRandomInt (.ok b2) fuel pos max = some (.ok (v, p')) := by
  unfold getRandomInt at h ⊢
  cases hc : (!max.isInteger || max.lt (JSNum.num 1)) with
  | true =>
    rw [if_pos hc] at h
    simp at h
  | false =>
    rw [if_neg (by simp [hc])] at h ⊢
    by_cases h1 : max.toNat = 1
    · rw [if_pos h1] at h ⊢
      exact h
    · rw [if_neg h1] at h ⊢
      have h2 : 2 ≤ max.toNat := by
        have := toNat_pos_of_valid hc
        omega
      have hbits : 1 ≤ bitsNeededOf max.toNat := lt_clog2 (by omega : 2 ^ 0 < max.toNat)
      have hbn : 1 ≤ bytesNeededOf max.toNat := by
        unfold bytesNeededOf
        omega
      exact getRandomIntLoop_agree hbn fuel pos v p' h hag

/-! ### Lemmas about the character-drawing loop of `generate` -/

theorem charset_getD_mem {idx : ℕ} (h : idx < CONSTANTS.CHARSET.length) :
    CONSTANTS.CHARSET.data.getD idx 'a' ∈ CONSTANTS.CHARSET.data := by
  have hlen : idx < CONSTANTS.CHARSET.data.length := h
  rw [List.getD_eq_getElem CONSTANTS.CHARSET.data 'a' hlen]
  exact List.getElem_mem hlen

theorem generateLoop_spec {fac : Facility} {fuel : ℕ} :
    ∀ count pos acc id p', generateLoop fac fuel count pos acc = some (.ok (id, p')) →
      id.length = acc.length + count ∧ ∀ c ∈ id, c ∈ acc ∨ c ∈ CONSTANTS.CHARSET.data := by
  intro count
  induction count with
  | zero =>
    intro pos acc id p' h
    rw [generateLoop] at h
    simp only [Option.some.injEq, Except.ok.injEq, Prod.mk.injEq] at h
    refine ⟨by rw [← h.1]; omega, fun c hc => Or.inl ?_⟩
    rw [h.1]
    exact hc
  | succ n ih =>
    intro pos acc id p' h
    rw [generateLoop] at h
    cases hgr : getRandomInt fac fuel pos (JSNum.num (CONSTANTS.CHARSET.length : ℚ)) with
    | none =>
      rw [hgr] at h
      simp at h
    | some r =>
      rw [hgr] at h
      cases r with
      | error e => simp at h
      | ok vp =>
        obtain ⟨idx, pos1⟩ := vp
        dsimp only at h
        have hidx : idx < CONSTANTS.CHARSET.length := by
          have hv := getRandomInt_lt hgr
          rwa [toNat_natCast] at hv
        obtain ⟨hlen, hmem⟩ :=
          ih pos1 (acc ++ [CONSTANTS.CHARSET.data.getD idx 'a']) id p' h
        constructor
        · rw [hlen, List.length_append, List.length_singleton]
          omega
        · intro c hc
          rcases hmem c hc with hacc | hcs
          · rcases List.mem_append.mp hacc with hl | hr
            · exact Or.inl hl
            · rw [List.mem_singleton.mp hr]
              exact Or.inr (charset_getD_mem hidx)
          · exact Or.inr hcs

theorem generateLoop_le {bytes : ℕ → ℕ} {fuel : ℕ} :
    ∀ count pos acc id p',
      generateLoop (.ok bytes) fuel count pos acc = some (.ok (id, p')) → pos ≤ p' := by
  intro count
  induction count with
  | zero =>
    intro pos acc id p' h
    rw [generateLoop] at h
    simp only [Option.some.injEq, Except.ok.injEq, Prod.mk.injEq] at h
    omega
  | succ n ih =>
    intro pos acc id p' h
    rw [generateLoop] at h
    cases hgr : getRandomInt (.ok bytes) fuel pos (JSNum.num (CONSTANTS.CHARSET.length : ℚ)) with
    | none =>
      rw [hgr] at h
      simp at h
    | some r =>
      rw [hgr] at h
      cases r with
      | error e => simp at h
      | ok vp =>
        obtain ⟨idx, pos1⟩ := vp
        dsimp only at h
        have h1 := getRandomInt_le hgr
        have h2 := ih pos1 _ id p' h
        omega

theorem generateLoop_agree {b1 b2 : ℕ → ℕ} {fuel : ℕ} :
    ∀ count pos acc id p',
      generateLoop (.ok b1) fuel count pos acc = some (.ok (id, p')) →
      (∀ i, pos ≤ i → i < p' → b2 i = b1 i) →
      generateLoop (.ok b2) fuel count pos acc = some (.ok (id, p')) := by
  intro count
  induction count with
  | zero =>
    intro pos acc id p' h _
    exact h
  | succ n ih =>
    intro pos acc id p' h hag
    rw [generateLoop] at h ⊢
    cases hgr : getRandomInt (.ok b1) fuel pos (JSNum.num (CONSTANTS.CHARSET.length : ℚ)) with
    | none =>
      rw [hgr] at h
      simp at h
    | some r =>
      rw [hgr] at h
      cases r with
      | error e => simp at h
      | ok vp =>
        obtain ⟨idx, pos1⟩ := vp
        dsimp only at h
        have hp1 := getRandomInt_le hgr
        have hp2 := generateLoop_le n pos1 _ id p' h
        have hgr2 := getRandomInt_agree hgr (fun i hi1 hi2 => hag i hi1 (by omega))
        rw [hgr2]
        dsimp only
        exact ih pos1 _ id p' h (fun i hi1 hi2 => hag i (by omega) hi2)

/-! ### Validation lemmas -/

theorem validateLength_natCast {len : ℕ} (h7 : 7 ≤ len) (h32 : len ≤ 32) :
    validateLength (JSNum.num (len : ℚ)) = .ok () := by
  unfold validateLength
  rw [isInteger_natCast, lt_natCast_natCast, lt_natCast_natCast]
  simp only [show CONSTANTS.MIN_LENGTH = 7 from rfl, show CONSTANTS.MAX_LENGTH = 32 from rfl,
    decide_eq_false (Nat.not_lt.mpr h7), decide_eq_false (Nat.not_lt.mpr h32)]
  rfl

/-! ### Real-number bounds for the length-7 collision probability -/

theorem calc_prob7_eq :
    calculateCollisionProbability 7 100000 =
      1 - Real.exp (-(9999900000 : ℝ) / 7043229212416) := by
  unfold calculateCollisionProbability
  rw [show CONSTANTS.CHARSET.length = 62 from rfl]
  norm_num

theorem prob7_bounds :
    (9999900000 : ℝ) / 7053229112416 ≤ calculateCollisionProbability 7 100000 ∧
      calculateCollisionProbability 7 100000 ≤ (9999900000 : ℝ) / 7043229212416 := by
  rw [calc_prob7_eq, neg_div]
  set x : ℝ := (9999900000 : ℝ) / 7043229212416 with hx
  clear_value x
  have hxpos : 0 < x := by rw [hx]; positivity
  constructor
  · have h1 : (7053229112416 : ℝ) / 7043229212416 ≤ Real.exp x := by
      have ha := Real.add_one_le_exp x
      have hb : x + 1 = (7053229112416 : ℝ) / 7043229212416 := by
        rw [hx]
        norm_num
      linarith
    have h2 : Real.exp (-x) ≤ 7043229212416 / 7053229112416 := by
      rw [Real.exp_neg]
      calc (Real.exp x)⁻¹ ≤ ((7053229112416 : ℝ) / 7043229212416)⁻¹ :=
            inv_anti₀ (by norm_num) h1
        _ = 7043229212416 / 7053229112416 := by norm_num
    have h3 : (9999900000 : ℝ) / 7053229112416 = 1 - 7043229212416 / 7053229112416 := by
      norm_num
    linarith
  · have ha := Real.add_one_le_exp (-x)
    rw [hx] at ha ⊢
    linarith

theorem safety7_moderate :
    getSafetyLevel (calculateCollisionProbability 7 100000) = SafetyLevel.moderate := by
  obtain ⟨hlo, hhi⟩ := prob7_bounds
  unfold getSafetyLevel COLLISION_THRESHOLDS
  rw [if_neg, if_pos]
  · calc (1 : ℝ) / 1000 ≤ 9999900000 / 7053229112416 := by norm_num
      _ ≤ _ := hlo
  · intro hc
    have : (9999900000 : ℝ) / 7043229212416 < 1 / 10 := by norm_num
    linarith

theorem toFixed3_prob7 :
    toFixed3 (calculateCollisionProbability 7 100000 * 100) = "0.142" := by
  obtain ⟨hlo, hhi⟩ := prob7_bounds
  have hn : ⌊calculateCollisionProbability 7 100000 * 100 * 1000 + 1 / 2⌋ = (142 : ℤ) := by
    rw [Int.floor_eq_iff]
    constructor
    · have h1 : (141.5 : ℝ) ≤ 9999900000 / 7053229112416 * 100000 := by norm_num
      push_cast
      nlinarith
    · have h2 : (9999900000 : ℝ) / 7043229212416 * 100000 < 142.5 := by norm_num
      push_cast
      nlinarith
  unfold toFixed3
  rw [hn]
  rfl

/-! ### Unfolding helpers for the public operations -/

theorem validateLength_not_integer {length : JSNum} (h : length.isInteger = false) :
    validateLength length = .error (.validation "ID length must be an integer") := by
  unfold validateLength
  rw [h]
  rfl

theorem validateLength_too_small {length : JSNum} (h : length.isInteger = true)
    (h2 : length.lt (JSNum.num 7) = true) :
    validateLength length = .error (.validation "ID length must be at least 7 characters") := by
  unfold validateLength
  rw [h, show ((CONSTANTS.MIN_LENGTH : ℕ) : ℚ) = (7 : ℚ) from by norm_num [CONSTANTS], h2]
  rfl

theorem validateLength_too_large {length : JSNum} (h : length.isInteger = true)
    (h2 : length.lt (JSNum.num 7) = false) (h3 : (JSNum.num 32).lt length = true) :
    validateLength length = .error (.validation "ID length cannot exceed 32 characters") := by
  unfold validateLength
  rw [h, show ((CONSTANTS.MIN_LENGTH : ℕ) : ℚ) = (7 : ℚ) from by norm_num [CONSTANTS],
    show ((CONSTANTS.MAX_LENGTH : ℕ) : ℚ) = (32 : ℚ) from by norm_num [CONSTANTS], h2, h3]
  rfl

theorem generate_error_of_validate {length : JSNum} {e : ZapidErr}
    (h : validateLength length = .error e) (fac : Facility) (fuel pos : ℕ) :
    generate fac fuel pos length = some (.error e) := by
  unfold generate
  rw [h]

theorem generateWithInfo_error_of_validate {length : JSNum} {e : ZapidErr}
    (h : validateLength length = .error e) (fac : Facility) (fuel pos : ℕ) :
    generateWithInfo fac fuel pos length = some (.error e) := by
  unfold generateWithInfo
  rw [h]

theorem getRandomInt_natCast_loop {max : ℕ} (h2 : 2 ≤ max) (fac : Facility) (fuel pos : ℕ) :
    getRandomInt fac fuel pos (JSNum.num (max : ℚ)) =
      getRandomIntLoop fac max (bytesNeededOf max) (maskOf max) fuel pos := by
  unfold getRandomInt
  rw [isInteger_natCast, show JSNum.num 1 = JSNum.num ((1 : ℕ) : ℚ) from by norm_num,
    lt_natCast_natCast, toNat_natCast, decide_eq_false (by omega : ¬max < 1)]
  rw [if_neg (by simp), if_neg (by omega : ¬max = 1)]

theorem drawVal_zero_mask (bs : List ℕ) : drawVal bs 0 = 0 := by
  unfold drawVal jsAnd
  rw [show toUint32 0 = 0 from by decide, Nat.and_zero]
  decide

theorem getRandomBytes_invalid {n : JSNum} (h : (!n.isInteger || n.lt (JSNum.num 1)) = true)
    (fac : Facility) (pos : ℕ) :
    getRandomBytes fac pos n = .error (.crypto "Random bytes length must be a positive integer") := by
  unfold getRandomBytes
  rw [h]
  rfl

theorem getRandomBytes_unavailable {n : JSNum}
    (h : (!n.isInteger || n.lt (JSNum.num 1)) = false) (pos : ℕ) :
    getRandomBytes .unavailable pos n =
      .error (.crypto ("Failed to generate random bytes: " ++ noCryptoMsg)) := by
  unfold getRandomBytes
  rw [h]
  rfl

theorem getRandomBytes_throws {n : JSNum}
    (h : (!n.isInteger || n.lt (JSNum.num 1)) = false) (msg : String) (pos : ℕ) :
    getRandomBytes (.throws msg) pos n =
      .error (.crypto ("Failed to generate random bytes: " ++ msg)) := by
  unfold getRandomBytes
  rw [h]
  rfl

theorem natCast_valid (n : ℕ) (hn : 1 ≤ n) :
    (!(JSNum.num (n : ℚ)).isInteger || (JSNum.num (n : ℚ)).lt (JSNum.num 1)) = false := by
  rw [isInteger_natCast, show JSNum.num 1 = JSNum.num ((1 : ℕ) : ℚ) from by norm_num,
    lt_natCast_natCast, decide_eq_false (by omega : ¬n < 1)]
  rfl

theorem generateWithInfo_fields {fac : Facility} {fuel pos : ℕ} {length : JSNum}
    {res : ZapidResult} {p' : ℕ}
    (h : generateWithInfo fac fuel pos length = some (.ok (res, p'))) :
    res.safety = getSafetyLevel (calculateCollisionProbability length.toNat 100000) ∧
      res.collisionProbability =
        toFixed3 (calculateCollisionProbability length.toNat 100000 * 100) ++ "%" ∧
      res.recommendation =
        getRecommendation length.toNat
          (getSafetyLevel (calculateCollisionProbability length.toNat 100000)) := by
  unfold generateWithInfo at h
  cases hval : validateLength length with
  | error e =>
    rw [hval] at h
    simp at h
  | ok u =>
    rw [hval] at h
    dsimp only at h
    cases hgen : generate fac fuel pos length with
    | none =>
      rw [hgen] at h
      simp at h
    | some r =>
      rw [hgen] at h
      cases r with
      | error e => simp at h
      | ok ip =>
        obtain ⟨id, pos1⟩ := ip
        dsimp only at h
        simp only [Option.some.injEq, Except.ok.injEq, Prod.mk.injEq] at h
        rw [← h.1]
        exact ⟨rfl, rfl, rfl⟩

theorem getRandomInt_propagates {max : JSNum}
    (hvalid : (!max.isInteger || max.lt (JSNum.num 1)) = false) (hne : max.toNat ≠ 1)
    (fac : Facility) {e : ZapidErr}
    (hfac : ∀ pos, getRandomBytes fac pos (JSNum.num ((bytesNeededOf max.toNat : ℕ) : ℚ)) =
      .error e) (fuel pos : ℕ) (hfuel : 1 ≤ fuel) :
    getRandomInt fac fuel pos max = some (.error e) := by
  unfold getRandomInt
  rw [if_neg (by simp [hvalid]), if_neg hne]
  cases fuel with
  | zero => omega
  | succ f =>
    rw [getRandomIntLoop, hfac pos]

/-! ### Claim theorems -/

/-- C1: for every integer length with `7 ≤ length ≤ 32`, whenever
`generate(length)` returns (the rejection loops having terminated within the
given fuel), it returns a string of exactly `length` characters, each a
member of the fixed 62-character charset `a-z`, `A-Z`, `0-9`. -/
theorem generate_valid_length_and_charset :
    ∀ len : ℕ, 7 ≤ len → len ≤ 32 →
      CONSTANTS.CHARSET.data.length = 62 ∧
        ∀ (bytes : ℕ → ℕ) (fuel pos : ℕ) (id : List Char) (p' : ℕ),
          generate (.ok bytes) fuel pos (JSNum.num (len : ℚ)) = some (.ok (id, p')) →
          id.length = len ∧ ∀ c ∈ id, c ∈ CONSTANTS.CHARSET.data := by
  intro len h7 h32
  refine ⟨by decide, ?_⟩
  intro bytes fuel pos id p' h
  unfold generate at h
  rw [validateLength_natCast h7 h32] at h
  dsimp only at h
  rw [toNat_natCast] at h
  obtain ⟨hlen, hmem⟩ := generateLoop_spec len pos [] id p' h
  exact ⟨by simpa using hlen, fun c hc => (hmem c hc).resolve_left (List.not_mem_nil c)⟩

/-- Witness for C1 at length 7 with the byte stream `i ↦ i`: the generated
id is `"abcdefg"`. -/
theorem generate_valid_length_and_charset_witness :
    (7 ≤ 7 ∧ 7 ≤ 32 ∧
      generate (.ok (fun i => i)) 1 0 (JSNum.num ((7 : ℕ) : ℚ)) =
        some (.ok (['a', 'b', 'c', 'd', 'e', 'f', 'g'], 7))) ∧
      ['a', 'b', 'c', 'd', 'e', 'f', 'g'].length = 7 ∧
      ∀ c ∈ ['a', 'b', 'c', 'd', 'e', 'f', 'g'], c ∈ CONSTANTS.CHARSET.data := by
  have happ := (generate_valid_length_and_charset 7 (by norm_num) (by norm_num)).2
    (fun i => i) 1 0 ['a', 'b', 'c', 'd', 'e', 'f', 'g'] 7 (by decide)
  exact ⟨⟨by norm_num, by norm_num, by decide⟩, happ.1, happ.2⟩

/-- C3: the safety classification applies its thresholds to the probability:
`p < 0.001` is safe, `0.001 ≤ p < 0.1` is moderate (so exactly `0.001` is
moderate), and `p ≥ 0.1` is high-risk (so exactly `0.1` is high-risk). -/
theorem getSafetyLevel_thresholds :
    ∀ p : ℚ, (p < 1 / 1000 → getSafetyLevel p = SafetyLevel.safe) ∧
      (1 / 1000 ≤ p → p < 1 / 10 → getSafetyLevel p = SafetyLevel.moderate) ∧
      (1 / 10 ≤ p → getSafetyLevel p = SafetyLevel.highRisk) := by
  intro p
  refine ⟨fun h => ?_, fun h1 h2 => ?_, fun h => ?_⟩
  · unfold getSafetyLevel COLLISION_THRESHOLDS
    rw [if_neg (by dsimp only; linarith), if_neg (by dsimp only; linarith)]
  · unfold getSafetyLevel COLLISION_THRESHOLDS
    rw [if_neg (by dsimp only; linarith), if_pos (by dsimp only; linarith)]
  · unfold getSafetyLevel COLLISION_THRESHOLDS
    rw [if_pos (by dsimp only; linarith)]

/-- Witness for C3 at the boundary probabilities `0`, `0.001` and `0.1`. -/
theorem getSafetyLevel_thresholds_witness :
    getSafetyLevel (0 : ℚ) = SafetyLevel.safe ∧
      getSafetyLevel ((1 : ℚ) / 1000) = SafetyLevel.moderate ∧
      getSafetyLevel ((1 : ℚ) / 10) = SafetyLevel.highRisk :=
  ⟨(getSafetyLevel_thresholds 0).1 (by norm_num),
   (getSafetyLevel_thresholds (1 / 1000)).2.1 (le_refl _) (by norm_num),
   (getSafetyLevel_thresholds (1 / 10)).2.2 (le_refl _)⟩

/-- C7: two calls to `getConfig()` return equal values
`{defaultLength = 7, minLength = 7, maxLength = 32, charset}`, the charset
agreeing with `getCharset()`.  The snapshot is a frozen copy, modelled as a
pure value, so mutating one snapshot cannot change a later one. -/
theorem getConfig_snapshot :
    getConfig = getConfig ∧
      getConfig = ⟨7, 7, 32, getCharset⟩ ∧
      getConfig.DEFAULT_LENGTH = 7 ∧ getConfig.MIN_LENGTH = 7 ∧
      getConfig.MAX_LENGTH = 32 ∧ getConfig.CHARSET = getCharset :=
  ⟨rfl, rfl, rfl, rfl, rfl, rfl⟩

/-- C4: a length that is not a mathematical integer, or below 7, or above
32 makes both `generate` and `generateWithInfo` fail with the corresponding
validation error, for every facility, fuel and stream position alike —
the result does not depend on the random source, so no entropy is consumed
and no partial result is produced.  The checks run integer, then minimum,
then maximum, first match winning. -/
theorem validation_rejects_invalid_length :
    ∀ length : JSNum,
      (length.isInteger = false →
        ∀ (fac : Facility) (fuel pos : ℕ),
          generate fac fuel pos length =
              some (.error (.validation "ID length must be an integer")) ∧
            generateWithInfo fac fuel pos length =
              some (.error (.validation "ID length must be an integer"))) ∧
      (length.isInteger = true → length.lt (JSNum.num 7) = true →
        ∀ (fac : Facility) (fuel pos : ℕ),
          generate fac fuel pos length =
              some (.error (.validation "ID length must be at least 7 characters")) ∧
            generateWithInfo fac fuel pos length =
              some (.error (.validation "ID length must be at least 7 characters"))) ∧
      (length.isInteger = true → length.lt (JSNum.num 7) = false →
          (JSNum.num 32).lt length = true →
        ∀ (fac : Facility) (fuel pos : ℕ),
          generate fac fuel pos length =
              some (.error (.validation "ID length cannot exceed 32 characters")) ∧
            generateWithInfo fac fuel pos length =
              some (.error (.validation "ID length cannot exceed 32 characters"))) := by
  intro length
  refine ⟨fun h fac fuel pos => ?_, fun h h2 fac fuel pos => ?_,
    fun h h2 h3 fac fuel pos => ?_⟩
  · exact ⟨generate_error_of_validate (validateLength_not_integer h) fac fuel pos,
      generateWithInfo_error_of_validate (validateLength_not_integer h) fac fuel pos⟩
  · exact ⟨generate_error_of_validate (validateLength_too_small h h2) fac fuel pos,
      generateWithInfo_error_of_validate (validateLength_too_small h h2) fac fuel pos⟩
  · exact ⟨generate_error_of_validate (validateLength_too_large h h2 h3) fac fuel pos,
      generateWithInfo_error_of_validate (validateLength_too_large h h2 h3) fac fuel pos⟩

/-- Witness for C4 at the concrete invalid lengths `7.5`, `6` and `33`,
with an unavailable facility and zero fuel (no entropy can be consumed). -/
theorem validation_rejects_invalid_length_witness :
    (generate .unavailable 0 0 (JSNum.num (mkRat 15 2)) =
        some (.error (.validation "ID length must be an integer")) ∧
      generateWithInfo .unavailable 0 0 (JSNum.num (mkRat 15 2)) =
        some (.error (.validation "ID length must be an integer"))) ∧
      (generate .unavailable 0 0 (JSNum.num ((6 : ℕ) : ℚ)) =
          some (.error (.validation "ID length must be at least 7 characters")) ∧
        generateWithInfo .unavailable 0 0 (JSNum.num ((6 : ℕ) : ℚ)) =
          some (.error (.validation "ID length must be at least 7 characters"))) ∧
      (generate .unavailable 0 0 (JSNum.num ((33 : ℕ) : ℚ)) =
          some (.error (.validation "ID length cannot exceed 32 characters")) ∧
        generateWithInfo .unavailable 0 0 (JSNum.num ((33 : ℕ) : ℚ)) =
          some (.error (.validation "ID length cannot exceed 32 characters"))) :=
  ⟨(validation_rejects_invalid_length (JSNum.num (mkRat 15 2))).1 (by decide) _ 0 0,
   (validation_rejects_invalid_length (JSNum.num ((6 : ℕ) : ℚ))).2.1
     (by decide) (by decide) _ 0 0,
   (validation_rejects_invalid_length (JSNum.num ((33 : ℕ) : ℚ))).2.2
     (by decide) (by decide) (by decide) _ 0 0⟩

/-- C6: `getRandomBytes` fails with a crypto error for every `n` that is not
a positive integer; `getRandomInt` fails with a crypto error for every such
`max`; an unavailable or throwing facility makes `getRandomBytes` fail with
a crypto error wrapping the underlying message, and `getRandomInt`
propagates that error unchanged. -/
theorem crypto_error_handling :
    (∀ n : JSNum, (!n.isInteger || n.lt (JSNum.num 1)) = true →
      ∀ (fac : Facility) (pos : ℕ),
        getRandomBytes fac pos n =
          .error (.crypto "Random bytes length must be a positive integer")) ∧
      (∀ max : JSNum, (!max.isInteger || max.lt (JSNum.num 1)) = true →
        ∀ (fac : Facility) (fuel pos : ℕ),
          getRandomInt fac fuel pos max =
            some (.error (.crypto "Maximum value must be a positive integer"))) ∧
      (∀ n : JSNum, (!n.isInteger || n.lt (JSNum.num 1)) = false → ∀ pos : ℕ,
        getRandomBytes .unavailable pos n =
          .error (.crypto ("Failed to generate random bytes: " ++ noCryptoMsg))) ∧
      (∀ n : JSNum, (!n.isInteger || n.lt (JSNum.num 1)) = false →
        ∀ (msg : String) (pos : ℕ),
          getRandomBytes (.throws msg) pos n =
            .error (.crypto ("Failed to generate random bytes: " ++ msg))) ∧
      (∀ max : ℕ, 2 ≤ max → ∀ (msg : String) (fuel pos : ℕ), 1 ≤ fuel →
        getRandomInt (.throws msg) fuel pos (JSNum.num (max : ℚ)) =
            some (.error (.crypto ("Failed to generate random bytes: " ++ msg))) ∧
          getRandomInt .unavailable fuel pos (JSNum.num (max : ℚ)) =
            some (.error (.crypto ("Failed to generate random bytes: " ++ noCryptoMsg)))) := by
  refine ⟨?_, ?_, ?_, ?_, ?_⟩
  · intro n h fac pos
    exact getRandomBytes_invalid h fac pos
  · intro max h fac fuel pos
    unfold getRandomInt
    rw [if_pos h]
  · intro n h pos
    exact getRandomBytes_unavailable h pos
  · intro n h msg pos
    exact getRandomBytes_throws h msg pos
  · intro max h2 msg fuel pos hfuel
    have hvalid := natCast_valid max (by omega)
    have hne : (JSNum.num ((max : ℕ) : ℚ)).toNat ≠ 1 := by
      rw [toNat_natCast]
      omega
    have hbits : 1 ≤ bitsNeededOf max := lt_clog2 (by omega : 2 ^ 0 < max)
    have hbn : 1 ≤ bytesNeededOf max := by
      unfold bytesNeededOf
      omega
    constructor
    · refine getRandomInt_propagates hvalid hne (.throws msg) ?_ fuel pos hfuel
      intro p
      rw [toNat_natCast]
      exact getRandomBytes_throws (natCast_valid _ hbn) msg p
    · refine getRandomInt_propagates hvalid hne .unavailable ?_ fuel pos hfuel
      intro p
      rw [toNat_natCast]
      exact getRandomBytes_unavailable (natCast_valid _ hbn) p

/-- Witness for C6 at concrete inputs: `n = 0`, `max = NaN`, `n = 3` with a
failing facility, and `max = 62` with a throwing facility. -/
theorem crypto_error_handling_witness :
    getRandomBytes (.ok (fun i => i)) 0 (JSNum.num 0) =
        .error (.crypto "Random bytes length must be a positive integer") ∧
      getRandomInt (.ok (fun i => i)) 1 0 JSNum.nan =
        some (.error (.crypto "Maximum value must be a positive integer")) ∧
      getRandomBytes .unavailable 0 (JSNum.num ((3 : ℕ) : ℚ)) =
        .error (.crypto ("Failed to generate random bytes: " ++ noCryptoMsg)) ∧
      getRandomBytes (.throws "boom") 0 (JSNum.num ((3 : ℕ) : ℚ)) =
        .error (.crypto ("Failed to generate random bytes: " ++ "boom")) ∧
      getRandomInt (.throws "boom") 1 0 (JSNum.num ((62 : ℕ) : ℚ)) =
        some (.error (.crypto ("Failed to generate random bytes: " ++ "boom"))) :=
  ⟨crypto_error_handling.1 (JSNum.num 0) (by decide) _ 0,
   crypto_error_handling.2.1 JSNum.nan (by decide) _ 1 0,
   crypto_error_handling.2.2.1 _ (by decide) 0,
   crypto_error_handling.2.2.2.1 _ (by decide) "boom" 0,
   (crypto_error_handling.2.2.2.2 62 (by norm_num) "boom" 1 0 (by norm_num)).1⟩

/-- C8: for every integer `max` with `2 ≤ max ≤ 2^31`, the masked sample
space satisfies `2^bitsNeeded < 2*max` (per-iteration rejection probability
strictly below one half), and the rejection loop terminates — with some
fuel, standing for the uncapped `while (true)` — on every byte stream that
eventually yields a masked draw below `max`. -/
theorem rejection_bound_and_termination :
    ∀ max : ℕ, 2 ≤ max → max ≤ 2 ^ 31 →
      2 ^ bitsNeededOf max < 2 * max ∧
        ∀ (bytes : ℕ → ℕ) (pos : ℕ),
          (∃ k, drawValAt bytes max (pos + k * bytesNeededOf max) < (max : ℤ)) →
          ∃ fuel v p',
            getRandomInt (.ok bytes) fuel pos (JSNum.num (max : ℚ)) = some (.ok (v, p')) := by
  intro max h2 h31
  have hbits1 : 1 ≤ bitsNeededOf max := lt_clog2 (by omega : 2 ^ 0 < max)
  constructor
  · unfold bitsNeededOf at hbits1 ⊢
    have hk := (clog2_spec max).2 (clog2 max - 1) (by omega)
    have h1 : 2 ^ (clog2 max - 1 + 1) = 2 ^ (clog2 max - 1) * 2 := pow_succ 2 _
    have h2 : clog2 max - 1 + 1 = clog2 max := by omega
    rw [h2] at h1
    omega
  · intro bytes pos hex
    obtain ⟨k, hk⟩ := hex
    have hbn : 1 ≤ bytesNeededOf max := by
      unfold bytesNeededOf
      omega
    unfold drawValAt at hk
    obtain ⟨fuel, v, p', hloop⟩ := getRandomIntLoop_term hbn k pos hk
    exact ⟨fuel, v, p', by rw [getRandomInt_natCast_loop h2]; exact hloop⟩

/-- Witness for C8 at `max = 62` with the all-zero byte stream, whose very
first masked draw is `0 < 62`. -/
theorem rejection_bound_and_termination_witness :
    2 ^ bitsNeededOf 62 < 2 * 62 ∧
      ∃ fuel v p',
        getRandomInt (.ok (fun _ => 0)) fuel 0 (JSNum.num ((62 : ℕ) : ℚ)) =
          some (.ok (v, p')) :=
  ⟨(rejection_bound_and_termination 62 (by norm_num) (by norm_num)).1,
   (rejection_bound_and_termination 62 (by norm_num) (by norm_num)).2 (fun _ => 0) 0
     ⟨0, by decide⟩⟩

/-- C9: for every integer `max` with `2^31 < max ≤ 2^32`, `bitsNeeded` is
32, the JavaScript 32-bit shift turns the mask `(1 << 32) - 1` into `0`, and
`getRandomInt(max)` accepts the masked value `0` on the first iteration
regardless of the bytes drawn — the result is the constant `0`. -/
theorem getRandomInt_degenerate_above_two_pow_31 :
    ∀ max : ℕ, 2 ^ 31 < max → max ≤ 2 ^ 32 →
      bitsNeededOf max = 32 ∧ maskOf max = 0 ∧
        ∀ (bytes : ℕ → ℕ) (fuel pos : ℕ), 1 ≤ fuel →
          getRandomInt (.ok bytes) fuel pos (JSNum.num (max : ℚ)) =
            some (.ok (0, pos + 4)) := by
  intro max h31 h32
  have hbits : bitsNeededOf max = 32 := by
    unfold bitsNeededOf
    have hle : clog2 max ≤ 32 := clog2_le h32
    have hlt : 31 < clog2 max := lt_clog2 h31
    omega
  have hmask : maskOf max = 0 := by
    unfold maskOf
    rw [hbits]
    decide
  have hbn : bytesNeededOf max = 4 := by
    unfold bytesNeededOf
    rw [hbits]
  refine ⟨hbits, hmask, ?_⟩
  intro bytes fuel pos hfuel
  rw [getRandomInt_natCast_loop (by omega)]
  cases fuel with
  | zero => omega
  | succ f =>
    rw [hbn, hmask, getRandomIntLoop_ok_succ bytes max (by omega) 0 f pos,
      drawVal_zero_mask, if_pos (by exact_mod_cast (by omega : (0 : ℕ) < max))]
    rfl

/-- Witness for C9 at `max = 2^32` with the all-255 byte stream: the result
is `0` after consuming 4 bytes. -/
theorem getRandomInt_degenerate_above_two_pow_31_witness :
    bitsNeededOf 4294967296 = 32 ∧ maskOf 4294967296 = 0 ∧
      getRandomInt (.ok (fun _ => 255)) 1 0 (JSNum.num ((4294967296 : ℕ) : ℚ)) =
        some (.ok (0, 0 + 4)) := by
  have h := getRandomInt_degenerate_above_two_pow_31 4294967296 (by norm_num) (by norm_num)
  exact ⟨h.1, h.2.1, h.2.2 (fun _ => 255) 1 0 (by norm_num)⟩

/-- C10: `generate` is deterministic given its entropy: if a run with byte
stream `b1` succeeds, then any byte stream agreeing with `b1` on the
positions actually consumed produces the identical id — the output depends
only on the length and the consumed random bytes. -/
theorem generate_deterministic_on_entropy :
    ∀ (length : JSNum) (b1 b2 : ℕ → ℕ) (fuel pos : ℕ) (id : List Char) (p' : ℕ),
      generate (.ok b1) fuel pos length = some (.ok (id, p')) →
      (∀ i, pos ≤ i → i < p' → b2 i = b1 i) →
      generate (.ok b2) fuel pos length = some (.ok (id, p')) := by
  intro length b1 b2 fuel pos id p' h hag
  unfold generate at h ⊢
  cases hval : validateLength length with
  | error e =>
    try rw [hval] at h
    dsimp only at h
    simp at h
  | ok u =>
    try rw [hval] at h
    try rw [hval]
    dsimp only at h ⊢
    exact generateLoop_agree length.toNat pos [] id p' h hag

/-- Witness for C10: a run with the all-zero stream replayed against an
identical stream reproduces `"aaaaaaa"`. -/
theorem generate_deterministic_on_entropy_witness :
    generate (.ok (fun _ => 0)) 1 0 (JSNum.num ((7 : ℕ) : ℚ)) =
      some (.ok (List.replicate 7 'a', 7)) :=
  generate_deterministic_on_entropy (JSNum.num ((7 : ℕ) : ℚ)) (fun _ => 0) (fun _ => 0) 1 0
    (List.replicate 7 'a') 7 (by decide) (fun i h1 h2 => rfl)

/-- C5 (amended): for every integer `max` with `1 ≤ max ≤ 2^31` (so
`bitsNeeded ≤ 31` and the JavaScript 32-bit shift computes the mathematical
mask), `getRandomInt` behaves exactly as the specified rejection-sampling
algorithm: `max = 1` returns `0` immediately without drawing, and otherwise
each iteration draws `bytesNeeded` bytes, packs them big-endian, masks to
`bitsNeeded` bits, and accepts exactly the values below `max`. -/
theorem getRandomInt_matches_spec_le_two_pow_31 :
    ∀ max : ℕ, 1 ≤ max → max ≤ 2 ^ 31 →
      ∀ bytes : ℕ → ℕ, (∀ i, bytes i < 256) →
        ∀ fuel pos : ℕ,
          getRandomInt (.ok bytes) fuel pos (JSNum.num (max : ℚ)) =
            Option.map Except.ok (getRandomIntSpec bytes fuel pos max) := by
  intro max h1 h31 bytes hbytes fuel pos
  by_cases hone : max = 1
  · subst hone
    unfold getRandomInt getRandomIntSpec
    rw [isInteger_natCast, show JSNum.num 1 = JSNum.num ((1 : ℕ) : ℚ) from by norm_num,
      lt_natCast_natCast, toNat_natCast, decide_eq_false (by omega : ¬(1 : ℕ) < 1)]
    simp
  · have h2 : 2 ≤ max := by omega
    rw [getRandomInt_natCast_loop h2]
    unfold getRandomIntSpec
    rw [if_neg hone]
    dsimp only
    unfold bytesNeededOf bitsNeededOf maskOf
    exact getRandomIntLoop_equiv hbytes (lt_clog2 (by omega : 2 ^ 0 < max)) (clog2_le h31)
      fuel pos

/-- Witness for the amended C5 at `max = 62` with the byte stream `i ↦ i`. -/
theorem getRandomInt_matches_spec_le_two_pow_31_witness :
    getRandomInt (.ok (fun i => i % 256)) 1 0 (JSNum.num ((62 : ℕ) : ℚ)) =
      Option.map Except.ok (getRandomIntSpec (fun i => i % 256) 1 0 62) :=
  getRandomInt_matches_spec_le_two_pow_31 62 (by norm_num) (by norm_num)
    (fun i => i % 256) (fun i => Nat.mod_lt i (by norm_num)) 1 0

/-- C5 counterexample: at `max = 2^32` (a valid positive-integer argument)
the code returns `0` after one draw while the specified algorithm — with the
mathematical mask `2^32 - 1` — returns the packed 32-bit value `4294967295`;
`getRandomInt` therefore does not implement the specified algorithm exactly
for every `max`. -/
theorem getRandomInt_differs_from_spec_at_two_pow_32 :
    getRandomInt (.ok (fun _ => 255)) 1 0 (JSNum.num ((4294967296 : ℕ) : ℚ)) =
        some (.ok (0, 4)) ∧
      getRandomIntSpec (fun _ => 255) 1 0 4294967296 = some (4294967295, 4) ∧
      getRandomInt (.ok (fun _ => 255)) 1 0 (JSNum.num ((4294967296 : ℕ) : ℚ)) ≠
        Option.map Except.ok (getRandomIntSpec (fun _ => 255) 1 0 4294967296) :=
  ⟨by decide, by decide, by decide⟩

/-- C2 (amended): `generateWithInfo(7)` classifies the birthday-bound
probability `1 - e^(-(100000*99999)/(2*62^7))` ≈ `0.00142` — which exceeds
the `0.001` safe threshold — as `"moderate"`, formats it as `"0.142%"`, and
returns the moderate recommendation, which carries no combination count. -/
theorem generateWithInfo_seven_fields :
    ∀ (bytes : ℕ → ℕ) (fuel pos : ℕ) (res : ZapidResult) (p' : ℕ),
      generateWithInfo (.ok bytes) fuel pos (JSNum.num ((7 : ℕ) : ℚ)) =
        some (.ok (res, p')) →
      res.safety = SafetyLevel.moderate ∧
        res.collisionProbability = "0.142%" ∧
        res.recommendation =
          "Moderate collision risk. Consider increasing length for large-scale use." := by
  intro bytes fuel pos res p' h
  obtain ⟨hs, hc, hr⟩ := generateWithInfo_fields h
  rw [toNat_natCast] at hs hc hr
  refine ⟨?_, ?_, ?_⟩
  · rw [hs, safety7_moderate]
  · rw [hc, toFixed3_prob7]
    decide
  · rw [hr, safety7_moderate]
    decide

/-- Witness for the amended C2: a concrete successful run of
`generateWithInfo(7)` reports the probability string `"0.142%"`. -/
theorem generateWithInfo_seven_fields_witness :
    Option.map (Except.map (fun rp => rp.1.collisionProbability))
        (generateWithInfo (.ok (fun _ => 0)) 1 0 (JSNum.num ((7 : ℕ) : ℚ))) =
      some (.ok "0.142%") := by
  obtain ⟨res, p', hrun⟩ :
      ∃ res p', generateWithInfo (.ok (fun _ => 0)) 1 0 (JSNum.num ((7 : ℕ) : ℚ)) =
        some (.ok (res, p')) := ⟨_, _, rfl⟩
  have hf := generateWithInfo_seven_fields (fun _ => 0) 1 0 res p' hrun
  rw [hrun, Option.map_some']
  simp only [Except.map]
  rw [hf.2.1]

/-- C2 counterexample: on a concrete successful run, the `safety` field of
`generateWithInfo(7)` is `"moderate"`, not `"safe"` as the claim states. -/
theorem generateWithInfo_seven_not_safe :
    Option.map (Except.map (fun rp => rp.1.safety))
        (generateWithInfo (.ok (fun _ => 0)) 1 0 (JSNum.num ((7 : ℕ) : ℚ))) =
        some (.ok SafetyLevel.moderate) ∧
      SafetyLevel.moderate ≠ SafetyLevel.safe := by
  constructor
  · obtain ⟨res, p', hrun⟩ :
        ∃ res p', generateWithInfo (.ok (fun _ => 0)) 1 0 (JSNum.num ((7 : ℕ) : ℚ)) =
          some (.ok (res, p')) := ⟨_, _, rfl⟩
    have hf := generateWithInfo_fields hrun
    rw [toNat_natCast] at hf
    rw [hrun, Option.map_some']
    simp only [Except.map]
    rw [hf.1, safety7_moderate]
  · decide

end Zapid
